import Mathlib

/-!
# Verification of the Smart Social Filter batch classification pipeline

A shallow embedding of the content-moderation extension: the background
script's batch analysis (`analyzeBatchWithAPI` and the `filterBatch` message
handler), and the content script's `TwitterContentFilter` (scan loop,
`batchFilterContent`, `keywordFilterContent`, `semanticMatch`, `applyFilter`).

JavaScript strings are modelled as Lean `String`, JS numbers occurring in the
pipeline as `Int`/`Nat` (all arithmetic here is exact on integers), absent or
`null`/`undefined` object fields as `Option`, and the JS `x || d` defaulting
idiom as explicit helpers that treat `0`, `""`, `false`, `null`/`undefined`
as falsy.  The external `fetch` is modelled by a `GatewayOutcome` parameter:
a non-ok HTTP status, a thrown network/shape exception, or a textual payload
already abstracted to `Option (Option (List ApiResult))` (outer `Option`:
did `JSON.parse` succeed; inner: was a `results` field present).
-/

set_option autoImplicit false

namespace SmartFilter

/-! ## String utilities (JS `includes`, `split(' ')`, regex stem match) -/

/-- `listStarts needle hay`: `needle` is a prefix of `hay` (char lists). -/
def listStarts : List Char → List Char → Bool
  | [], _ => true
  | _ :: _, [] => false
  | a :: as, b :: bs => a == b && listStarts as bs

/-- `containsSub needle hay`: `needle` occurs contiguously in `hay`. -/
def containsSub (needle : List Char) : List Char → Bool
  | [] => listStarts needle []
  | c :: t => listStarts needle (c :: t) || containsSub needle t

/-- JS `hay.includes(needle)` for strings. -/
def strIncludes (hay needle : String) : Bool :=
  containsSub needle.data hay.data

/-- Helper for `splitSpaces`: accumulates the current (reversed) word. -/
def splitSpacesAux : List Char → List Char → List String
  | acc, [] => [String.mk acc.reverse]
  | acc, c :: rest =>
    if c == ' ' then String.mk acc.reverse :: splitSpacesAux [] rest
    else splitSpacesAux (c :: acc) rest

/-- JS `s.split(' ')`: split on every single space, keeping empty pieces. -/
def splitSpaces (s : String) : List String :=
  splitSpacesAux [] s.data

/-- A JS whitespace character as relevant to `trim` on the texts handled
here. -/
def jsWhitespace (c : Char) : Bool :=
  c == ' ' || c == '\t' || c == '\n' || c == '\r'

/-- JS `s.trim()`: drop whitespace from both ends. -/
def jsTrim (s : String) : String :=
  String.mk (((s.data.dropWhile jsWhitespace).reverse.dropWhile jsWhitespace).reverse)

/-- JS `s.toLowerCase()` (ASCII, which covers all strings in this code). -/
def jsToLower (s : String) : String :=
  String.mk (s.data.map Char.toLower)

/-- A JS regex `\w` character: letter, digit or underscore. -/
def wordChar (c : Char) : Bool :=
  (('a' ≤ c && c ≤ 'z') || ('A' ≤ c && c ≤ 'Z') || ('0' ≤ c && c ≤ '9') || c == '_')

/-- Splits a char list into its maximal runs of word characters. -/
def tokensAux : List Char → List Char → List (List Char)
  | acc, [] => if acc.isEmpty then [] else [acc.reverse]
  | acc, c :: rest =>
    if wordChar c then tokensAux (c :: acc) rest
    else if acc.isEmpty then tokensAux [] rest
    else acc.reverse :: tokensAux [] rest

/-- JS `text.match(/\b(s1\w*|s2\w*|...)\b/i) !== null` for a list of stems:
some maximal word-character run of `text` starts with one of the stems
(the text handled here is already lowercase, matching the `i` flag). -/
def hasStemToken (text : String) (stems : List String) : Bool :=
  (tokensAux [] text.data).any fun tok => stems.any fun s => listStarts s.data tok

/-! ## JS falsy-defaulting helpers (`x || d`) -/

/-- JS `x || d` for a possibly-missing number field (`0` is falsy). -/
def jsOrInt (o : Option Int) (d : Int) : Int :=
  match o with
  | none => d
  | some v => if v = 0 then d else v

/-- JS `x || d` for a possibly-missing string field (`""` is falsy). -/
def jsOrStr (o : Option String) (d : String) : String :=
  match o with
  | none => d
  | some s => if s = "" then d else s

/-- JS `x || false` for a possibly-missing boolean field. -/
def jsOrBool (o : Option Bool) : Bool :=
  o.getD false

/-! ## Background script: data model -/

/-- The configured model identifier (`MODEL_NAME` in background.js). -/
def MODEL_NAME : String := "gemini-1.5-flash-latest"

/-- One tweet as sent to the `filterBatch` handler: its text and image flag
(`id`/`index` fields play no role in the background script). -/
structure Tweet where
  text : String
  hasImages : Bool
  deriving DecidableEq, Repr

/-- One entry of the classifier's parsed `results` array; every field may be
absent or null. -/
structure ApiResult where
  tweetIndex : Option Int := none
  shouldFilter : Option Bool := none
  matchedFilter : Option String := none
  confidence : Option Int := none
  reasoning : Option String := none
  deriving DecidableEq, Repr

/-- A classification result object as produced by the pipeline; fields that a
given code path does not set are `none`. -/
structure ClassificationResult where
  shouldFilter : Bool
  confidence : Option String := none
  method : String
  reason : Option String := none
  details : Option String := none
  error : Option String := none
  deriving DecidableEq, Repr

/-- Outcome of the single `fetch` to the external classifier. -/
inductive GatewayOutcome where
  /-- Non-ok HTTP status; carries `error.error?.message || response.status`. -/
  | httpError (msg : String)
  /-- `fetch`/shape exception (connectivity, timeout, missing candidates). -/
  | networkError (msg : String)
  /-- HTTP success with response text; `none` = `JSON.parse` failed,
  `some none` = parsed but no `results` field, `some (some rs)` = results. -/
  | ok (payload : Option (Option (List ApiResult)))
  deriving DecidableEq, Repr

/-- Observable side effects of one `analyzeBatchWithAPI` run. -/
inductive Effect where
  /-- One HTTP call to the external classifier API. -/
  | apiCall
  deriving DecidableEq, Repr

/-! ## Background script: `analyzeBatchWithAPI` -/

/-- Result returned for every tweet when no filters are configured. -/
def noFiltersResult : ClassificationResult :=
  { shouldFilter := false
    method := "No Filters Active"
    reason := some "No filters configured"
    details := some "Add filters to enable content filtering" }

/-- Per-tweet fallback result when the payload is not valid JSON. -/
def parseErrorResult : ClassificationResult :=
  { shouldFilter := false
    confidence := some "0%"
    method := MODEL_NAME ++ " Batch API - Parse Error"
    reason := some "JSON parsing failed"
    details := some "API returned invalid JSON format" }

/-- The synthetic default used when no API result can be matched to a tweet:
`{ shouldFilter: false, confidence: 0, reasoning: 'No result returned' }`. -/
def noResultDefault : ApiResult :=
  { shouldFilter := some false
    confidence := some 0
    reasoning := some "No result returned" }

/-- `Math.min(100, Math.max(1, apiResult.confidence || 50))`. -/
def normConfidence (c : Option Int) : Int :=
  min 100 (max 1 (jsOrInt c 50))

/-- Builds the aligned result object for one tweet from its resolved raw
API result. -/
def processedResult (r : ApiResult) : ClassificationResult :=
  { shouldFilter := jsOrBool r.shouldFilter
    confidence := some (toString (normConfidence r.confidence) ++ "%")
    method := MODEL_NAME ++ " Batch API"
    reason := some (jsOrStr r.matchedFilter "No filter matched")
    details := some (jsOrStr r.reasoning "Batch analysis completed") }

/-- `apiResults.find(r => r.tweetIndex === (index + 1)) || apiResults[index]
|| default` for 0-based position `i`. -/
def resolveApi (apiResults : List ApiResult) (i : Nat) : ApiResult :=
  match apiResults.find? (fun r => r.tweetIndex == some ((i : Int) + 1)) with
  | some r => r
  | none =>
    match apiResults[i]? with
    | some r => r
    | none => noResultDefault

/-- The alignment step of `analyzeBatchWithAPI`: from the abstracted payload
of a successful HTTP response, produce one result per original tweet.  The
JS callback `tweets.map((tweet, index) => ...)` uses only `index`, so the
parsed branch maps over the positions `0 .. tweets.length - 1`. -/
def alignBatch (tweets : List Tweet) (payload : Option (Option (List ApiResult))) :
    List ClassificationResult :=
  match payload with
  | none => tweets.map fun _ => parseErrorResult
  | some results? =>
    let apiResults := results?.getD []
    (List.range tweets.length).map fun i => processedResult (resolveApi apiResults i)

/-- `analyzeBatchWithAPI(tweets, filters)` with the external call abstracted
to a `GatewayOutcome`: returns the emitted effects together with either the
result list or the thrown error message. -/
def analyzeBatchRun (tweets : List Tweet) (filters : List String)
    (g : GatewayOutcome) : List Effect × Except String (List ClassificationResult) :=
  if filters.isEmpty then
    ([], .ok (tweets.map fun _ => noFiltersResult))
  else
    ([.apiCall],
      match g with
      | .httpError msg => .error ("API error: " ++ msg)
      | .networkError msg => .error msg
      | .ok payload => .ok (alignBatch tweets payload))

/-- Per-tweet result built by the `filterBatch` message handler when
`analyzeBatchWithAPI` rejects with message `e`. -/
def batchErrorResult (e : String) : ClassificationResult :=
  { shouldFilter := false
    error := some "Batch API analysis failed"
    method := "Batch Error"
    details := some e }

/-- The `chrome.runtime.onMessage` handler for `action === 'filterBatch'`:
forwards the resolved results, or maps each tweet to `batchErrorResult`
when the analysis rejected. -/
def filterBatchHandler (tweets : List Tweet) (filters : List String)
    (g : GatewayOutcome) : List ClassificationResult :=
  match (analyzeBatchRun tweets filters g).2 with
  | .ok rs => rs
  | .error e => tweets.map fun _ => batchErrorResult e

/-! ## Content script: scanning (`processTweets` collection loop) -/

/-- A DOM element considered by the scan loop: an opaque identity (the dedup
key, standing for node identity in `processedTweets`), the `textContent` of
the first match of each of the five inline-text selectors inside it (`none`
when the selector matches nothing), and its embedded image sources. -/
structure Element where
  id : Nat
  fragments : List (Option String)
  imageSrcs : List String
  deriving DecidableEq, Repr

/-- `extractTweetText`: for each text selector whose query succeeds, append
its text plus a space; finally trim. -/
def extractTweetText (el : Element) : String :=
  jsTrim (el.fragments.foldl (fun acc f =>
    match f with
    | some s => acc ++ s ++ " "
    | none => acc) "")

/-- A collected batch entry: the element with its extracted text and image
sources, as pushed onto `batchEntries`. -/
structure BatchEntry where
  el : Element
  text : String
  images : List String
  deriving DecidableEq, Repr

/-- The inner loop of `processTweets` over one selector's element list:
skip elements already in the seen set, skip (without marking) elements whose
extracted text is empty, and otherwise collect an entry and mark the element
seen. -/
def scanPass (seen : List Nat) : List Element → List Nat × List BatchEntry
  | [] => (seen, [])
  | el :: rest =>
    if seen.contains el.id then scanPass seen rest
    else
      let t := extractTweetText el
      if t = "" then scanPass seen rest
      else
        let r := scanPass (seen ++ [el.id]) rest
        (r.1, ⟨el, t, el.imageSrcs⟩ :: r.2)

/-- The outer loop of `processTweets` over the tweet selectors: run the pass
for each selector's element list in order, stopping after the first selector
that collected a non-empty batch. -/
def processRound (seen : List Nat) : List (List Element) → List Nat × List BatchEntry
  | [] => (seen, [])
  | els :: rest =>
    let r := scanPass seen els
    if r.2.isEmpty then processRound r.1 rest
    else r

/-! ## Content script: `batchFilterContent` -/

/-- Per-entry default result produced by `batchFilterContent`'s catch block. -/
def contentBatchErrorResult (e : String) : ClassificationResult :=
  { shouldFilter := false
    confidence := some "0%"
    method := "Batch Error"
    reason := some "Batch processing failed"
    details := some (jsOrStr (some e) "Unknown error") }

/-- `batchFilterContent`: forward the message round-trip's results, or on an
exception return one default error result per entry. -/
def batchFilterContent (entries : List BatchEntry)
    (outcome : Except String (List ClassificationResult)) : List ClassificationResult :=
  match outcome with
  | .ok rs => rs
  | .error e => entries.map fun _ => contentBatchErrorResult e

/-! ## Content script: heuristic classifier (`keywordFilterContent`,
`semanticMatch`) -/

/-- The synonym-expansion table of `semanticMatch`, in declaration order. -/
def synonymsTable : List (String × List String) := [
  ("political", ["politics", "election", "vote", "voting", "government",
    "politician", "congress", "senate", "president", "democratic",
    "republican", "liberal", "conservative", "policy", "campaign", "ballot",
    "candidate"]),
  ("politics", ["political", "election", "vote", "voting", "government",
    "politician", "congress", "senate", "president", "democratic",
    "republican", "liberal", "conservative", "policy", "campaign"]),
  ("crypto", ["cryptocurrency", "bitcoin", "ethereum", "blockchain", "nft",
    "defi", "web3", "metaverse", "token", "coin", "mining", "wallet",
    "exchange", "trading"]),
  ("cryptocurrency", ["crypto", "bitcoin", "ethereum", "blockchain", "nft",
    "defi", "web3", "metaverse", "token", "coin", "mining"]),
  ("bitcoin", ["btc", "crypto", "cryptocurrency", "blockchain", "mining",
    "satoshi"]),
  ("sports", ["football", "basketball", "soccer", "baseball", "tennis",
    "golf", "hockey", "game", "match", "tournament", "championship",
    "playoff", "season", "team", "player", "coach", "stadium", "league"]),
  ("football", ["nfl", "quarterback", "touchdown", "superbowl", "sports",
    "game", "match"]),
  ("basketball", ["nba", "playoffs", "championship", "sports", "game",
    "match", "court"]),
  ("negative", ["sad", "angry", "hate", "terrible", "awful", "bad",
    "depressing", "tragic", "horrible", "devastating", "outrage",
    "disgusting", "shocking"]),
  ("toxic", ["hate", "angry", "disgusting", "terrible", "awful", "horrible",
    "nasty", "mean"]),
  ("news", ["breaking", "report", "update", "alert", "happening",
    "developing", "latest", "urgent", "exclusive", "story"]),
  ("breaking", ["news", "alert", "urgent", "developing", "happening",
    "latest", "update"]),
  ("tech", ["technology", "software", "hardware", "computer", "programming",
    "coding", "developer", "startup", "innovation"]),
  ("ai", ["artificial intelligence", "machine learning", "deep learning",
    "neural network", "chatgpt", "openai", "anthropic"]),
  ("celebrity", ["famous", "star", "actor", "actress", "singer", "musician",
    "influencer", "tiktoker", "youtuber"]),
  ("music", ["song", "album", "artist", "band", "concert", "tour", "spotify",
    "streaming"]),
  ("finance", ["money", "stock", "investment", "trading", "market",
    "economy", "recession", "inflation", "bank"]),
  ("stock", ["market", "trading", "investment", "shares", "nasdaq", "dow",
    "sp500", "finance"])]

/-- The `partialMatches` regex stems of `semanticMatch`, keyed as in the
source: each regex `\b(s1\w*|...)\b/i` is abstracted to its stem list. -/
def partialStems : List (String × List String) := [
  ("political", ["politic", "govern", "election", "campaign"]),
  ("crypto", ["crypto", "bitcoin", "blockchain", "nft"]),
  ("sports", ["sport", "game", "match", "playoff"]),
  ("negative", ["hate", "angry", "terrible", "awful"])]

/-- `semanticMatch(text, filterWord)`: the first synonym key related to the
filter word (either contains the other) decides via its word list; if no key
is related, fall back to the stem regexes for the four partial-match keys. -/
def semanticMatch (text filterWord : String) : Bool :=
  match synonymsTable.find?
      (fun kv => strIncludes filterWord kv.1 || strIncludes kv.1 filterWord) with
  | some kv => kv.2.any fun w => strIncludes text w
  | none =>
    partialStems.any fun kv => strIncludes filterWord kv.1 && hasStemToken text kv.2

/-- One filter word matches the lowercase text verbatim or semantically. -/
def wordMatches (lowerText word : String) : Bool :=
  strIncludes lowerText word || semanticMatch lowerText word

/-- `(matchCount / wordCount * 100).toFixed(0)` as an exact natural number:
rounding `m * 100 / n` half-up, as ECMAScript `toFixed` does (the JS value
is a double within half an ulp of the rational, which rounds identically on
this range). -/
def jsToFixed0 (m n : Nat) : Nat :=
  (200 * m + n) / (2 * n)

/-- The per-rule loop of `keywordFilterContent` over the filter list. -/
def keywordFilterGo (lowerText : String) : List String → ClassificationResult
  | [] => { shouldFilter := false, method := "Keywords" }
  | f :: rest =>
    let ws := splitSpaces (jsToLower f)
    let m := ws.countP fun w => wordMatches lowerText w
    if (ws.length + 1) / 2 ≤ m then
      { shouldFilter := true
        reason := some f
        confidence := some (toString (jsToFixed0 m ws.length) ++ "%")
        method := "Keywords" }
    else keywordFilterGo lowerText rest

/-- `keywordFilterContent(text)` against the filter list: lowercase the text
and test the rules in declaration order. -/
def keywordFilterContent (filters : List String) (text : String) : ClassificationResult :=
  keywordFilterGo (jsToLower text) filters

/-- Stated from the spec's wording, for comparison with the code: a rule
matches a (lowercase) text when at least `ceil(wordCount / 2)` of the rule's
lowercase words match it, verbatim or by synonym/stem expansion. -/
def ruleMatchesSpec (lowerText rule : String) : Bool :=
  let ws := splitSpaces (jsToLower rule)
  (ws.length + 1) / 2 ≤ ws.countP fun w => wordMatches lowerText w

/-! ## Content script: visual suppression (`applyFilter`) -/

/-- The overlay node appended by `applyFilter` over a filtered element. -/
structure Overlay where
  className : String
  reason : String
  confidence : Option String
  method : Option String
  deriving DecidableEq, Repr

/-- The visual state of a tweet element as touched by `applyFilter`. -/
structure ElementVisual where
  classes : List String
  overlays : List Overlay
  positionRelative : Bool
  deriving DecidableEq, Repr

/-- `applyFilter(tweetElement, reason, confidence, method)`: a no-op when the
`filtered-content` class is already present; otherwise add the class, append
one overlay and set relative positioning. -/
def applyFilter (el : ElementVisual) (reason : String) (confidence : Option String)
    (method : Option String) : ElementVisual :=
  if el.classes.contains "filtered-content" then el
  else
    { classes := el.classes ++ ["filtered-content"]
      overlays := el.overlays ++ [⟨"filter-overlay", reason, confidence, method⟩]
      positionRelative := true }

/-! ## Helper lemmas -/

/-- A list of copies of one passing result passes `all`. -/
theorem all_map_const {α : Type} (l : List α) (k : ClassificationResult)
    (p : ClassificationResult → Bool) (hp : p k = true) :
    (l.map fun _ => k).all p = true := by
  induction l with
  | nil => rfl
  | cons a t ih => simp only [List.map_cons, List.all_cons, ih, hp, Bool.and_self]

/-- Appending an element makes `contains` find it. -/
theorem contains_append_singleton (l : List String) (s : String) :
    (l ++ [s]).contains s = true := by
  induction l with
  | nil => simp
  | cons a t ih => simp

/-- `split(' ')` never yields an empty array. -/
theorem splitSpacesAux_ne_nil (cs acc : List Char) : splitSpacesAux acc cs ≠ [] := by
  induction cs generalizing acc with
  | nil => simp [splitSpacesAux]
  | cons c rest ih =>
    simp only [splitSpacesAux]
    split
    · simp
    · exact ih _

/-- The word list of a filter has at least one element. -/
theorem splitSpaces_length_pos (s : String) : 1 ≤ (splitSpaces s).length :=
  List.length_pos.mpr (splitSpacesAux_ne_nil _ _)

/-- Rounded percentage bounds: with at least half of `n ≥ 1` words matched,
`(m / n * 100).toFixed(0)` lies in `[50, 100]`. -/
theorem jsToFixed0_bounds (m n : Nat) (hhalf : (n + 1) / 2 ≤ m) (hmn : m ≤ n)
    (hn : 1 ≤ n) : 50 ≤ jsToFixed0 m n ∧ jsToFixed0 m n ≤ 100 := by
  have h2n : 0 < 2 * n := by omega
  constructor
  · rw [jsToFixed0, Nat.le_div_iff_mul_le h2n]
    omega
  · have hlt : jsToFixed0 m n < 101 := by
      rw [jsToFixed0, Nat.div_lt_iff_lt_mul h2n]
      omega
    omega

/-- `scanPass` adds to the seen set exactly the identities of the entries it
collected, and it collects only elements with non-empty extracted text. -/
theorem scanPass_seen_eq (els : List Element) (seen : List Nat) :
    (scanPass seen els).1 = seen ++ ((scanPass seen els).2.map fun e => e.el.id) ∧
    ((scanPass seen els).2.all fun e => !(extractTweetText e.el == "")) = true := by
  induction els generalizing seen with
  | nil => simp [scanPass]
  | cons el rest ih =>
    simp only [scanPass]
    split
    · exact ih seen
    · split
      · exact ih seen
      · rename_i ht
        refine ⟨?_, ?_⟩
        · have h1 := (ih (seen ++ [el.id])).1
          simp only [List.map_cons]
          rw [h1]
          simp
        · simp only [List.all_cons, Bool.and_eq_true]
          exact ⟨by simpa using ht, (ih (seen ++ [el.id])).2⟩

/-! ## Claim theorems -/

/-- C1: For every list of original units and every raw classifier payload
(well-formed, malformed, truncated, reordered, or with missing entries), the
batch alignment in `analyzeBatchWithAPI` returns a result list whose length
equals the number of original units, with exactly one result per unit; and
on any successful HTTP response the analysis returns exactly that aligned
list. -/
theorem alignBatch_length (tweets : List Tweet)
    (payload : Option (Option (List ApiResult))) (f : String) (fs : List String) :
    (alignBatch tweets payload).length = tweets.length ∧
    (analyzeBatchRun tweets (f :: fs) (.ok payload)).2 = .ok (alignBatch tweets payload) := by
  constructor
  · cases payload <;> simp [alignBatch]
  · simp [analyzeBatchRun]

/-- C2 counterexample: an element with empty extracted text is visited by
the scan round but is NOT added to the processed set (the round leaves the
seen set empty), contradicting the claim that every visited unit is marked
seen whether or not text was extracted. -/
theorem emptyText_not_marked_seen_cex :
    extractTweetText ⟨0, [], []⟩ = "" ∧
    (processRound [] [[(⟨0, [], []⟩ : Element)]]).1 = [] ∧
    (processRound [] [[(⟨0, [], []⟩ : Element)]]).2 = [] := by
  decide

/-- C2 amended: during a scan round the units marked seen are exactly the
units from which a batch entry was collected, and every collected unit has
non-empty extracted text; hence a visited unit whose extracted text is empty
is NOT added to the processed set and will be reconsidered by later scan
rounds. -/
theorem processRound_marks_exactly_collected (seen : List Nat)
    (passes : List (List Element)) :
    (processRound seen passes).1 =
      seen ++ ((processRound seen passes).2.map fun e => e.el.id) ∧
    ((processRound seen passes).2.all fun e => !(extractTweetText e.el == "")) = true := by
  induction passes generalizing seen with
  | nil => simp [processRound]
  | cons els rest ih =>
    simp only [processRound]
    split
    · rename_i hempty
      have h1 := (scanPass_seen_eq els seen).1
      have hnil : (scanPass seen els).2 = [] := List.isEmpty_iff.mp hempty
      have hseen : (scanPass seen els).1 = seen := by rw [h1, hnil]; simp
      rw [hseen]
      exact ih seen
    · exact scanPass_seen_eq els seen

/-- C4: For every batch of units, if the active rule list is empty then no
classifier call is issued (no effects are emitted) and every unit receives a
result with `shouldFilter = false` and method `"No Filters Active"`. -/
theorem analyzeBatch_no_filters (tweets : List Tweet) (g : GatewayOutcome) :
    analyzeBatchRun tweets [] g = ([], .ok (tweets.map fun _ => noFiltersResult)) ∧
    ((tweets.map fun _ => noFiltersResult).all fun r =>
      !r.shouldFilter && (r.method == "No Filters Active")) = true := by
  constructor
  · simp [analyzeBatchRun]
  · simp only [List.all_eq_true, List.mem_map]
    rintro r ⟨t, _, rfl⟩
    decide

/-- C3 counterexample: with the single active rule "political content" and a
unit whose text the heuristic classifier matches (`shouldFilter = true`), a
failed gateway call still yields a default non-filtered result with method
"Batch Error" — the heuristic is never substituted, so the unit is not
filtered.  Shown both for the background handler's rejection path and for
the content script's `batchFilterContent` catch. -/
theorem heuristic_not_substituted_cex :
    (keywordFilterContent ["political content"]
      "Congress passed a new voting bill today").shouldFilter = true ∧
    (filterBatchHandler [⟨"Congress passed a new voting bill today", false⟩]
        ["political content"] (.httpError "429")).map
      (fun r => (r.shouldFilter, r.method)) = [(false, "Batch Error")] ∧
    (batchFilterContent
        [⟨⟨0, [some "Congress passed a new voting bill today"], []⟩,
          "Congress passed a new voting bill today", []⟩]
        (.error "Could not establish connection")).map
      (fun r => (r.shouldFilter, r.method)) = [(false, "Batch Error")] := by
  decide

/-- C3 amended: when the gateway call for a batch fails, every unit of the
failed batch receives the same default result with `shouldFilter = false`
and method "Batch Error"; the heuristic keyword classifier is present in the
code but is not invoked, so no unit of a failed batch is filtered. -/
theorem batch_failure_default_results (entries : List BatchEntry) (e : String) :
    batchFilterContent entries (.error e) =
      entries.map (fun _ => contentBatchErrorResult e) ∧
    ((batchFilterContent entries (.error e)).all fun r =>
      !r.shouldFilter && (r.method == "Batch Error")) = true := by
  exact ⟨rfl, all_map_const entries _ _ rfl⟩

/-- C5: For every batch with at least one active rule whose gateway call
fails with a transport error (non-2xx HTTP status, e.g. 429) or a network
error, the failure propagates as a single batch-level rejection, and the
`filterBatch` handler produces exactly one default result per unit of the
batch, each with `shouldFilter = false` and method "Batch Error"; no unit is
dropped and no unit is filtered. -/
theorem filterBatch_transport_error (tweets : List Tweet) (f : String)
    (fs : List String) (msg : String) :
    (analyzeBatchRun tweets (f :: fs) (.httpError msg)).2 =
      .error ("API error: " ++ msg) ∧
    (analyzeBatchRun tweets (f :: fs) (.networkError msg)).2 = .error msg ∧
    filterBatchHandler tweets (f :: fs) (.httpError msg) =
      tweets.map (fun _ => batchErrorResult ("API error: " ++ msg)) ∧
    filterBatchHandler tweets (f :: fs) (.networkError msg) =
      tweets.map (fun _ => batchErrorResult msg) ∧
    (filterBatchHandler tweets (f :: fs) (.httpError msg)).length = tweets.length ∧
    ((filterBatchHandler tweets (f :: fs) (.httpError msg)).all fun r =>
      !r.shouldFilter && (r.method == "Batch Error")) = true := by
  have hh : filterBatchHandler tweets (f :: fs) (.httpError msg) =
      tweets.map (fun _ => batchErrorResult ("API error: " ++ msg)) := by
    simp [filterBatchHandler, analyzeBatchRun]
  have hn : filterBatchHandler tweets (f :: fs) (.networkError msg) =
      tweets.map (fun _ => batchErrorResult msg) := by
    simp [filterBatchHandler, analyzeBatchRun]
  refine ⟨by simp [analyzeBatchRun], by simp [analyzeBatchRun], hh, hn, ?_, ?_⟩
  · rw [hh]; simp
  · rw [hh]; exact all_map_const tweets _ _ rfl

/-- C6: For every batch with at least one active rule, if the classifier
responds with success status but the payload is not valid JSON, the aligner
returns exactly one result per original unit, every result has
`shouldFilter = false`, and every result's method contains "Parse Error";
the recovery is local (the analysis resolves, it does not reject). -/
theorem analyzeBatch_parse_error (tweets : List Tweet) (f : String)
    (fs : List String) :
    analyzeBatchRun tweets (f :: fs) (.ok none) =
      ([.apiCall], .ok (tweets.map fun _ => parseErrorResult)) ∧
    (tweets.map fun _ => parseErrorResult).length = tweets.length ∧
    ((tweets.map fun _ => parseErrorResult).all fun r => !r.shouldFilter) = true ∧
    ∃ pre post, parseErrorResult.method = pre ++ "Parse Error" ++ post := by
  exact ⟨by simp [analyzeBatchRun, alignBatch], by simp,
    all_map_const tweets _ _ (by decide),
    "gemini-1.5-flash-latest Batch API - ", "", by decide⟩

/-- C7: Every aligned confidence value is clamped into `[1, 100]`, whatever
integer the classifier returned (including 0, negative values and values
above 100); in particular a returned confidence of 150 for a single unit
yields the aligned confidence string "100%". -/
theorem confidence_clamped :
    (∀ c : Option Int, 1 ≤ normConfidence c ∧ normConfidence c ≤ 100) ∧
    (alignBatch [⟨"x", false⟩]
        (some (some [⟨some 1, some true, some "spam", some 150, some "x"⟩]))).map
      (fun r => r.confidence) = [some "100%"] := by
  constructor
  · intro c
    rcases c with _ | v
    · decide
    · simp only [normConfidence, jsOrInt]
      by_cases hv : v = 0
      · rw [if_pos hv]; decide
      · rw [if_neg hv]
        constructor <;> simp only [min_def, max_def] <;> split_ifs <;> omega
  · decide

/-- C9: apply-suppression is idempotent: a second `applyFilter` call on an
element already put in the filtered state (with any arguments) is a no-op,
leaving exactly the visual state of the single call, which carries the
`filtered-content` class. -/
theorem applyFilter_idem (el : ElementVisual) (r : String) (c : Option String)
    (m : Option String) (r' : String) (c' : Option String) (m' : Option String) :
    applyFilter (applyFilter el r c m) r' c' m' = applyFilter el r c m ∧
    ((applyFilter el r c m).classes.contains "filtered-content") = true := by
  have key : ∀ (e : ElementVisual), e.classes.contains "filtered-content" = true →
      ∀ r₀ c₀ m₀, applyFilter e r₀ c₀ m₀ = e := by
    intro e he r₀ c₀ m₀
    have hm : "filtered-content" ∈ e.classes := by simpa using he
    simp [applyFilter, hm]
  by_cases h : el.classes.contains "filtered-content" = true
  · constructor
    · rw [key el h r c m, key el h r' c' m']
    · rw [key el h r c m]; exact h
  · have hm : "filtered-content" ∉ el.classes := by simpa using h
    have hclasses : (applyFilter el r c m).classes = el.classes ++ ["filtered-content"] := by
      simp [applyFilter, hm]
    have hmem : (applyFilter el r c m).classes.contains "filtered-content" = true := by
      rw [hclasses]; exact contains_append_singleton _ _
    exact ⟨key (applyFilter el r c m) hmem r' c' m', hmem⟩

/-- The per-rule loop agrees with the spec-side rule predicate: it reports a
match exactly when some rule matches, its reported rule is the first matching
one in declaration order, and its method tag is "Keywords". -/
theorem keywordFilterGo_spec (lt : String) (filters : List String) :
    (keywordFilterGo lt filters).shouldFilter =
      filters.any (fun f => ruleMatchesSpec lt f) ∧
    (keywordFilterGo lt filters).reason =
      filters.find? (fun f => ruleMatchesSpec lt f) ∧
    (keywordFilterGo lt filters).method = "Keywords" := by
  induction filters with
  | nil => exact ⟨rfl, rfl, rfl⟩
  | cons f rest ih =>
    by_cases h : ((splitSpaces (jsToLower f)).length + 1) / 2 ≤
        (splitSpaces (jsToLower f)).countP fun w => wordMatches lt w
    · have hb : ruleMatchesSpec lt f = true := by
        simp only [ruleMatchesSpec]
        exact decide_eq_true h
      refine ⟨?_, ?_, ?_⟩
      · simp only [keywordFilterGo, if_pos h, List.any_cons, hb, Bool.true_or]
      · simp only [keywordFilterGo, if_pos h]
        rw [List.find?_cons_of_pos _ hb]
      · simp only [keywordFilterGo, if_pos h]
    · have hb : ruleMatchesSpec lt f = false := by
        simp only [ruleMatchesSpec]
        exact decide_eq_false h
      refine ⟨?_, ?_, ?_⟩
      · simp only [keywordFilterGo, if_neg h, List.any_cons, hb, Bool.false_or]
        exact ih.1
      · simp only [keywordFilterGo, if_neg h]
        rw [List.find?_cons_of_neg _ (by simp [hb])]
        exact ih.2.1
      · simp only [keywordFilterGo, if_neg h]
        exact ih.2.2

/-- C8: the heuristic classifier reports a match iff some rule has at least
`ceil(wordCount / 2)` of its lowercase words matching the lowercase text
(verbatim or via synonym/stem expansion); rules are tested in declaration
order with the first match winning (the reported rule is `find?` of the
match predicate); and the text "Congress passed a new voting bill today"
against the single rule "political content" is filtered. -/
theorem keywordFilter_first_match (filters : List String) (text : String) :
    (keywordFilterContent filters text).shouldFilter =
      filters.any (fun f => ruleMatchesSpec (jsToLower text) f) ∧
    (keywordFilterContent filters text).reason =
      filters.find? (fun f => ruleMatchesSpec (jsToLower text) f) ∧
    (keywordFilterContent ["political content"]
      "Congress passed a new voting bill today").shouldFilter = true := by
  obtain ⟨h1, h2, -⟩ := keywordFilterGo_spec (jsToLower text) filters
  exact ⟨h1, h2, by decide⟩

/-- C10: whenever the heuristic classifier filters a unit, the confidence it
reports is a percentage between 50% and 100% inclusive. -/
theorem keywordFilter_confidence_range (filters : List String) (text : String)
    (h : (keywordFilterContent filters text).shouldFilter = true) :
    ∃ k : Nat, (keywordFilterContent filters text).confidence =
      some (toString k ++ "%") ∧ 50 ≤ k ∧ k ≤ 100 := by
  unfold keywordFilterContent at h ⊢
  revert h
  generalize jsToLower text = lt
  induction filters with
  | nil =>
    intro h
    exact absurd h (by simp [keywordFilterGo])
  | cons f rest ih =>
    intro h
    by_cases hc : ((splitSpaces (jsToLower f)).length + 1) / 2 ≤
        (splitSpaces (jsToLower f)).countP fun w => wordMatches lt w
    · have hb := jsToFixed0_bounds
        ((splitSpaces (jsToLower f)).countP fun w => wordMatches lt w)
        (splitSpaces (jsToLower f)).length hc (List.countP_le_length _)
        (splitSpaces_length_pos _)
      refine ⟨jsToFixed0 ((splitSpaces (jsToLower f)).countP fun w => wordMatches lt w)
        (splitSpaces (jsToLower f)).length, ?_, hb.1, hb.2⟩
      simp only [keywordFilterGo, if_pos hc]
    · simp only [keywordFilterGo, if_neg hc] at h ⊢
      exact ih h

/-- C10 witness: a concrete filtered unit whose reported confidence lies in
`[50, 100]`. -/
theorem keywordFilter_confidence_range_witness :
    ∃ k : Nat, (keywordFilterContent ["political content"]
      "Congress passed a new voting bill today").confidence =
      some (toString k ++ "%") ∧ 50 ≤ k ∧ k ≤ 100 :=
  keywordFilter_confidence_range ["political content"]
    "Congress passed a new voting bill today" (by decide)

end SmartFilter
